/-
Verification of the ABCU Course Planner (ProjectTwo.cpp).

The program loads course records from a comma-delimited text file into a
binary search tree keyed by course number, prints a sorted course list and
prints the details of a single course, prerequisites included.  The
definitions below are a shallow embedding of the C++ source: `Course` and
`CourseBST` mirror the `Course` struct and the `TreeNode`/`CourseBST` tree,
`insertHelper`/`searchHelper`/`inOrder` mirror the private helper member
functions, `trim`/`split`/`toUpper` mirror the utility functions, and
`loadCoursesFromFile`/`printCourseInformation`/`printInOrderLines` mirror
the file-loading and printing routines, with `cout` output modelled as a
list of output lines and the input file modelled as `Option (List String)`
(`none` = the file could not be opened, `some lines` = its lines).
-/
import Mathlib

/-- One course record: course number (key), title and prerequisite
course-number identifiers, mirroring `struct Course`. -/
structure Course where
  courseNumber : String
  courseTitle : String
  prerequisites : List String
deriving DecidableEq

/-- The binary search tree of `CourseBST`: a node holds one `Course` plus
left and right children (`TreeNode`); `leaf` is the null pointer. -/
inductive CourseBST where
  | leaf : CourseBST
  | node (leftChild : CourseBST) (courseData : Course) (rightChild : CourseBST) : CourseBST
deriving DecidableEq

/-- Lexicographic comparison of character lists, deciding one comparison
step per position exactly as `std::lexicographical_compare` does on the
bytes of a `std::string` (UTF-8 byte order and code-point order agree). -/
def lexLt : List Char → List Char → Bool
  | [], [] => false
  | [], _ :: _ => true
  | _ :: _, [] => false
  | a :: as, b :: bs =>
    if a < b then true
    else if b < a then false
    else lexLt as bs

/-- Embedding of `std::string operator<`: lexicographic comparison of the contents. -/
def strLtb (s₁ s₂ : String) : Bool := lexLt s₁.data s₂.data

namespace CourseBST

/-- Embedding of `CourseBST::insertHelper`: walk down by comparing course numbers with
`std::string operator<`; at a null link allocate a new node; at an equal
key overwrite the stored title and prerequisite list (upsert). -/
def insertHelper : CourseBST → Course → CourseBST
  | leaf, newCourse => node leaf newCourse leaf
  | node l d r, newCourse =>
    if strLtb newCourse.courseNumber d.courseNumber then
      node (insertHelper l newCourse) d r
    else if strLtb d.courseNumber newCourse.courseNumber then
      node l d (insertHelper r newCourse)
    else
      node l { d with courseTitle := newCourse.courseTitle,
                      prerequisites := newCourse.prerequisites } r

/-- Embedding of `CourseBST::searchHelper`: exact-match lookup by course number,
returning the stored course if found (`nullptr` = `none`). -/
def searchHelper : CourseBST → String → Option Course
  | leaf, _ => none
  | node l d r, targetNumber =>
    if targetNumber = d.courseNumber then some d
    else if strLtb targetNumber d.courseNumber then searchHelper l targetNumber
    else searchHelper r targetNumber

/-- Embedding of `CourseBST::inOrderHelper`: the in-order sequence of stored courses
(left subtree, node, right subtree). -/
def inOrder : CourseBST → List Course
  | leaf => []
  | node l d r => inOrder l ++ d :: inOrder r

/-- Embedding of `CourseBST::clear`: delete every node and reset the root to null. -/
def clear (_ : CourseBST) : CourseBST := leaf

/-- The course numbers stored in the tree, in in-order sequence. -/
def keys (t : CourseBST) : List String := (inOrder t).map Course.courseNumber

/-- Embedding of `CourseBST::printInOrder`: "No courses loaded." on an empty tree,
otherwise one "number, title" line per course in in-order sequence. -/
def printInOrderLines : CourseBST → List String
  | leaf => ["No courses loaded."]
  | node l d r => (inOrder (node l d r)).map
      (fun c => c.courseNumber ++ ", " ++ c.courseTitle)

/-- Insert a list of courses left to right, as successive
`CourseBST::insert` calls do. -/
def insertList (t : CourseBST) (cs : List Course) : CourseBST := cs.foldl insertHelper t

end CourseBST

/-- The whitespace set `" \t\r\n"` used by `trim`. -/
def isTrimWS (c : Char) : Bool := c = ' ' || c = '\t' || c = '\r' || c = '\n'

/-- Embedding of `trim`: drop leading and trailing characters from `" \t\r\n"`; a string
of only whitespace becomes empty (`find_first_not_of` returns `npos`). -/
def trim (s : String) : String :=
  ⟨((s.data.dropWhile isTrimWS).reverse.dropWhile isTrimWS).reverse⟩

/-- Embedding of `split` on a character list: the token sequence produced by repeated
`std::getline(ss, token, delimiter)`.  `getline` fails exactly when the
stream is already exhausted, so an empty input yields no token and a
trailing delimiter yields no trailing empty token. -/
def splitChars (delimiter : Char) : List Char → List (List Char)
  | [] => []
  | c :: cs =>
    if c = delimiter then [] :: splitChars delimiter cs
    else
      match splitChars delimiter cs with
      | [] => [[c]]
      | t :: ts => (c :: t) :: ts

/-- Embedding of `split`: tokenize a line with a single-character delimiter. -/
def split (line : String) (delimiter : Char) : List String :=
  (splitChars delimiter line.data).map fun l => ⟨l⟩

/-- Embedding of `toupper` on one character with the default "C" locale: only the ASCII
lowercase letters are mapped. -/
def toUpperChar (c : Char) : Char :=
  if 'a' ≤ c ∧ c ≤ 'z' then Char.ofNat (c.toNat - 32) else c

/-- Embedding of `toUpper`: uppercase every character of the string. -/
def toUpper (s : String) : String := ⟨s.data.map toUpperChar⟩

/-- The prerequisite-collection loop of `loadCoursesFromFile`: for each
token from index 2 on, trim it and append it if non-empty. -/
def collectPrereqs (tokens : List String) : List String :=
  (tokens.drop 2).foldl
    (fun acc tok => let prereqId := trim tok;
      if prereqId ≠ "" then acc ++ [prereqId] else acc) []

/-- The body of the `while (getline(inputFile, line))` loop of
`loadCoursesFromFile` for one line: returns the updated tree and the lines
printed to `cout` while processing it.  Blank lines are skipped silently;
fewer than two fields is a format error; a course with an empty number or
title after trimming is a format warning; otherwise the course is
inserted. -/
def processLine (lineNumber : Nat) (line : String) (tree : CourseBST) :
    CourseBST × List String :=
  if trim line = "" then (tree, [])
  else
    let tokens := split line ','
    if tokens.length < 2 then
      (tree, ["File format error on line " ++ toString lineNumber ++
                ": fewer than two fields.",
              "Offending line: " ++ line])
    else
      let course : Course :=
        { courseNumber := trim (tokens.getD 0 ""),
          courseTitle := trim (tokens.getD 1 ""),
          prerequisites := collectPrereqs tokens }
      if course.courseNumber ≠ "" ∧ course.courseTitle ≠ "" then
        (tree.insertHelper course, [])
      else
        (tree, ["File format warning on line " ++ toString lineNumber ++
                  ": missing course number or title."])

/-- The whole line loop of `loadCoursesFromFile`, starting at the given
line number. -/
def loadLines (lineNumber : Nat) (lines : List String) (tree : CourseBST) :
    CourseBST × List String :=
  match lines with
  | [] => (tree, [])
  | l :: rest =>
    let p := processLine lineNumber l tree
    let q := loadLines (lineNumber + 1) rest p.1
    (q.1, p.2 ++ q.2)

/-- Embedding of `loadCoursesFromFile`: if the file cannot be opened (`none`), print the
error and return `false` with the tree untouched; otherwise clear the tree,
run the line loop from line number 1, print the success message and return
`true`.  The result is `(tree, returnValue, outputLines)`. -/
def loadCoursesFromFile (fileName : String) (file : Option (List String))
    (tree : CourseBST) : CourseBST × Bool × List String :=
  match file with
  | none => (tree, false, ["Error opening file: " ++ fileName])
  | some lines =>
    let r := loadLines 1 lines tree.clear
    (r.1, true, r.2 ++ ["Courses successfully loaded from file: " ++ fileName])

/-- The body of the prerequisite-printing loop of
`printCourseInformation`: uppercase the identifier, look it up, and render
either "number, title" or the bare identifier annotated as not found. -/
def renderPrereqLine (tree : CourseBST) (prereqIdRaw : String) : String :=
  let prereqId := toUpper prereqIdRaw
  match tree.searchHelper prereqId with
  | some prereqCourse =>
      "  " ++ prereqCourse.courseNumber ++ ", " ++ prereqCourse.courseTitle
  | none => "  " ++ prereqId ++ " (course not found in data)"

/-- Embedding of `printCourseInformation`: uppercase the queried number, search, and
render either the not-found message or the course header followed by its
prerequisite block ("Prerequisites: None" when the list is empty).  The
blank `cout << endl` before the header is the `""` line. -/
def printCourseInformation (tree : CourseBST) (targetNumber : String) :
    List String :=
  let searchNumber := toUpper targetNumber
  match tree.searchHelper searchNumber with
  | none => ["Course " ++ searchNumber ++ " not found."]
  | some found =>
    let header := ["", found.courseNumber ++ ", " ++ found.courseTitle]
    if found.prerequisites.isEmpty then header ++ ["Prerequisites: None"]
    else header ++ ["Prerequisites:"] ++
      found.prerequisites.foldl (fun acc p => acc ++ [renderPrereqLine tree p]) []

/-- Embedding of `CourseBST::searchHelper` with the tree threaded through as mutable
state: the C++ function receives the tree by non-const reference, so its
effect on the tree is part of its contract.  The returned tree is
reassembled along the recursion exactly as the call stack leaves it. -/
def searchHelperS : CourseBST → String → CourseBST × Option Course
  | CourseBST.leaf, _ => (CourseBST.leaf, none)
  | CourseBST.node l d r, targetNumber =>
    if targetNumber = d.courseNumber then (CourseBST.node l d r, some d)
    else if strLtb targetNumber d.courseNumber then
      let p := searchHelperS l targetNumber
      (CourseBST.node p.1 d r, p.2)
    else
      let p := searchHelperS r targetNumber
      (CourseBST.node l d p.1, p.2)

/-- The prerequisite loop of `printCourseInformation` with the tree
threaded as state through every `tree.search` call. -/
def renderPrereqsS (tree : CourseBST) : List String → CourseBST × List String
  | [] => (tree, [])
  | p :: ps =>
    let s := searchHelperS tree (toUpper p)
    let line := match s.2 with
      | some pc => "  " ++ pc.courseNumber ++ ", " ++ pc.courseTitle
      | none => "  " ++ toUpper p ++ " (course not found in data)"
    let rest := renderPrereqsS s.1 ps
    (rest.1, line :: rest.2)

/-- Embedding of `printCourseInformation` with the tree threaded as mutable state
(it receives `CourseBST& tree`): returns the tree as left after the call
together with the printed lines. -/
def printCourseInformationS (tree : CourseBST) (targetNumber : String) :
    CourseBST × List String :=
  let searchNumber := toUpper targetNumber
  let s := searchHelperS tree searchNumber
  match s.2 with
  | none => (s.1, ["Course " ++ searchNumber ++ " not found."])
  | some found =>
    if found.prerequisites.isEmpty then
      (s.1, ["", found.courseNumber ++ ", " ++ found.courseTitle,
             "Prerequisites: None"])
    else
      let r := renderPrereqsS s.1 found.prerequisites
      (r.1, ["", found.courseNumber ++ ", " ++ found.courseTitle,
             "Prerequisites:"] ++ r.2)

/-- The binary-search-tree invariant: every key in the left subtree is
strictly below the node's key and every key in the right subtree strictly
above, recursively. -/
inductive IsBST : CourseBST → Prop
  | leaf : IsBST CourseBST.leaf
  | node {l r : CourseBST} {d : Course}
      (hl : ∀ k ∈ l.keys, k < d.courseNumber)
      (hr : ∀ k ∈ r.keys, d.courseNumber < k)
      (bl : IsBST l) (br : IsBST r) : IsBST (CourseBST.node l d r)

/-- Lemma: `lexLt` decides Mathlib's lexicographic order on character lists. -/
theorem lexLt_iff : ∀ (as bs : List Char), lexLt as bs = true ↔ as < bs
  | [], [] => by
    simp only [lexLt]
    exact iff_of_false (by simp) (by intro h; cases h)
  | [], b :: bs => iff_of_true rfl (List.nil_lt_cons b bs)
  | a :: as, [] => by
    simp only [lexLt]
    exact iff_of_false (by simp) (by intro h; cases h)
  | a :: as, b :: bs => by
    simp only [lexLt]
    by_cases hab : a < b
    · simp only [if_pos hab, true_iff]
      exact List.Lex.rel hab
    · rw [if_neg hab]
      by_cases hba : b < a
      · rw [if_pos hba]
        refine iff_of_false (by simp) ?_
        intro h
        cases h with
        | cons h => exact lt_irrefl a hba
        | rel h => exact hab h
      · rw [if_neg hba]
        have heq : a = b := le_antisymm (not_lt.mp hba) (not_lt.mp hab)
        subst heq
        rw [lexLt_iff as bs]
        constructor
        · exact fun h => List.Lex.cons h
        · intro h
          cases h with
          | cons h => exact h
          | rel h => exact absurd h (lt_irrefl a)

/-- Lemma: `strLtb` decides Mathlib's linear order on `String`. -/
theorem strLtb_iff (s₁ s₂ : String) : strLtb s₁ s₂ = true ↔ s₁ < s₂ := by
  rw [String.lt_iff_toList_lt]
  exact lexLt_iff s₁.data s₂.data

namespace CourseBST

theorem keys_node (l r : CourseBST) (d : Course) :
    keys (node l d r) = keys l ++ d.courseNumber :: keys r := by
  simp [keys, inOrder]

theorem keys_leaf : keys leaf = [] := rfl

theorem mem_keys_insertHelper {t : CourseBST} {c : Course} {k : String}
    (h : k ∈ (t.insertHelper c).keys) : k ∈ t.keys ∨ k = c.courseNumber := by
  induction t with
  | leaf =>
    simp only [insertHelper, keys_node, keys_leaf, List.nil_append,
      List.mem_cons, List.not_mem_nil, or_false] at h
    exact Or.inr h
  | node l d r ihl ihr =>
    simp only [insertHelper] at h
    split_ifs at h with h1 h2
    · rw [keys_node] at h
      rw [keys_node]
      simp only [List.mem_append, List.mem_cons] at h ⊢
      rcases h with hl | hrest
      · rcases ihl hl with h' | h'
        · exact Or.inl (Or.inl h')
        · exact Or.inr h'
      · exact Or.inl (Or.inr hrest)
    · rw [keys_node] at h
      rw [keys_node]
      simp only [List.mem_append, List.mem_cons] at h ⊢
      rcases h with hl | hd | hr
      · exact Or.inl (Or.inl hl)
      · exact Or.inl (Or.inr (Or.inl hd))
      · rcases ihr hr with h' | h'
        · exact Or.inl (Or.inr (Or.inr h'))
        · exact Or.inr h'
    · rw [keys_node] at h
      rw [keys_node]
      exact Or.inl h

theorem isBST_insertHelper {t : CourseBST} {c : Course} (hb : IsBST t) :
    IsBST (t.insertHelper c) := by
  induction hb with
  | leaf =>
    refine IsBST.node ?_ ?_ IsBST.leaf IsBST.leaf <;> simp [keys_leaf]
  | @node l r d hl hr bl br ihl ihr =>
    simp only [insertHelper]
    split_ifs with h1 h2
    · refine IsBST.node ?_ hr ihl br
      intro k hk
      rcases mem_keys_insertHelper hk with h' | h'
      · exact hl k h'
      · exact h' ▸ (strLtb_iff _ _).mp h1
    · refine IsBST.node hl ?_ bl ihr
      intro k hk
      rcases mem_keys_insertHelper hk with h' | h'
      · exact hr k h'
      · exact h' ▸ (strLtb_iff _ _).mp h2
    · exact IsBST.node hl hr bl br

theorem sorted_keys {t : CourseBST} (hb : IsBST t) :
    t.keys.Sorted (· < ·) := by
  induction hb with
  | leaf => simp [keys_leaf, List.Sorted]
  | @node l r d hl hr bl br ihl ihr =>
    rw [keys_node]
    rw [List.Sorted] at ihl ihr ⊢
    rw [List.pairwise_append]
    refine ⟨ihl, ?_, ?_⟩
    · exact List.Pairwise.cons hr ihr
    · intro a ha b hb
      have ha' := hl a ha
      rcases List.mem_cons.mp hb with h' | h'
      · exact h' ▸ ha'
      · exact lt_trans ha' (hr b h')

theorem keys_insertHelper_perm {t : CourseBST} {c : Course}
    (h : c.courseNumber ∉ t.keys) :
    (t.insertHelper c).keys.Perm (c.courseNumber :: t.keys) := by
  induction t with
  | leaf => simp [insertHelper, keys_node, keys_leaf]
  | node l d r ihl ihr =>
    rw [keys_node] at h
    simp only [List.mem_append, List.mem_cons, not_or] at h
    obtain ⟨hnl, hnd, hnr⟩ := h
    simp only [insertHelper]
    split_ifs with h1 h2
    · rw [keys_node, keys_node]
      have h3 := (ihl hnl).append_right (d.courseNumber :: r.keys)
      rwa [List.cons_append] at h3
    · rw [keys_node, keys_node]
      have h3 := (ihr hnr).cons d.courseNumber
      have h4 := (h3.trans
        (List.Perm.swap c.courseNumber d.courseNumber r.keys)).append_left l.keys
      exact h4.trans List.perm_middle
    · have h1' : ¬c.courseNumber < d.courseNumber :=
        fun hlt => h1 ((strLtb_iff _ _).mpr hlt)
      have h2' : ¬d.courseNumber < c.courseNumber :=
        fun hlt => h2 ((strLtb_iff _ _).mpr hlt)
      exact absurd (le_antisymm (not_lt.mp h2') (not_lt.mp h1')) hnd

theorem searchHelper_insertHelper_self (t : CourseBST) (c : Course) :
    (t.insertHelper c).searchHelper c.courseNumber = some c := by
  induction t with
  | leaf => simp [insertHelper, searchHelper]
  | node l d r ihl ihr =>
    simp only [insertHelper]
    split_ifs with h1 h2
    · rw [searchHelper, if_neg (ne_of_lt ((strLtb_iff _ _).mp h1)), if_pos h1]
      exact ihl
    · have h2' := (strLtb_iff _ _).mp h2
      rw [searchHelper, if_neg (ne_of_gt h2'),
        if_neg (fun hx => absurd ((strLtb_iff _ _).mp hx)
          (not_lt.mpr (le_of_lt h2')))]
      exact ihr
    · have h1' : ¬c.courseNumber < d.courseNumber :=
        fun hlt => h1 ((strLtb_iff _ _).mpr hlt)
      have h2' : ¬d.courseNumber < c.courseNumber :=
        fun hlt => h2 ((strLtb_iff _ _).mpr hlt)
      have hd : d.courseNumber = c.courseNumber :=
        le_antisymm (not_lt.mp h1') (not_lt.mp h2')
      rw [searchHelper]
      simp only [hd, if_pos rfl]
      cases c
      simp_all

theorem keys_insertHelper_of_mem {t : CourseBST} {c : Course} (hb : IsBST t)
    (h : c.courseNumber ∈ t.keys) : (t.insertHelper c).keys = t.keys := by
  induction hb with
  | leaf => simp [keys_leaf] at h
  | @node l r d hl hr bl br ihl ihr =>
    rw [keys_node] at h
    simp only [insertHelper]
    split_ifs with h1 h2
    · have h1' := (strLtb_iff _ _).mp h1
      rw [keys_node, keys_node, ihl ?_]
      rcases List.mem_append.mp h with h' | h'
      · exact h'
      · rcases List.mem_cons.mp h' with h'' | h''
        · exact absurd h'' (ne_of_lt h1')
        · exact absurd (hr _ h'') (not_lt.mpr (le_of_lt h1'))
    · have h2' := (strLtb_iff _ _).mp h2
      rw [keys_node, keys_node, ihr ?_]
      rcases List.mem_append.mp h with h' | h'
      · exact absurd (hl _ h') (not_lt.mpr (le_of_lt h2'))
      · rcases List.mem_cons.mp h' with h'' | h''
        · exact absurd h''.symm (ne_of_lt h2')
        · exact h''
    · rw [keys_node, keys_node]

end CourseBST

namespace CourseBST

theorem insertList_spec (cs : List Course) : ∀ (t : CourseBST), IsBST t →
    (t.keys ++ cs.map Course.courseNumber).Nodup →
    IsBST (t.insertList cs) ∧
      (t.insertList cs).keys.Perm (t.keys ++ cs.map Course.courseNumber) := by
  induction cs with
  | nil =>
    intro t hb hn
    exact ⟨hb, by simp [insertList]⟩
  | cons c cs ih =>
    intro t hb hn
    have hnotmem : c.courseNumber ∉ t.keys := by
      intro hmem
      have hd := List.disjoint_of_nodup_append hn
      exact hd hmem (by simp)
    have perm1 := keys_insertHelper_perm hnotmem (c := c)
    have hb1 := isBST_insertHelper hb (c := c)
    have permA : ((t.insertHelper c).keys ++ cs.map Course.courseNumber).Perm
        (c.courseNumber :: (t.keys ++ cs.map Course.courseNumber)) := by
      have h3 := perm1.append_right (cs.map Course.courseNumber)
      rwa [List.cons_append] at h3
    have hn2 : (c.courseNumber :: (t.keys ++ cs.map Course.courseNumber)).Nodup := by
      refine (List.Perm.nodup_iff List.perm_middle).mp ?_
      simpa using hn
    have hn3 := (List.Perm.nodup_iff permA.symm).mp hn2
    have hstep : t.insertList (c :: cs) = (t.insertHelper c).insertList cs := rfl
    obtain ⟨hbRes, hpRes⟩ := ih (t.insertHelper c) hb1 hn3
    refine ⟨hstep ▸ hbRes, ?_⟩
    rw [hstep]
    have htot := hpRes.trans (permA.trans List.perm_middle.symm)
    simpa using htot

/-- Lemma: `searchHelperS` leaves the tree exactly as it was and returns the same
result as the functional `searchHelper`. -/
theorem searchHelperS_spec (t : CourseBST) (k : String) :
    searchHelperS t k = (t, t.searchHelper k) := by
  induction t with
  | leaf => rfl
  | node l d r ihl ihr =>
    simp only [searchHelperS, searchHelper]
    split_ifs with h1 h2 <;> simp [ihl, ihr]

end CourseBST

/-- The prerequisite loop as state transformer: the tree is unchanged and
the printed lines are the pointwise renderings. -/
theorem renderPrereqsS_spec (t : CourseBST) (ps : List String) :
    renderPrereqsS t ps = (t, ps.map (renderPrereqLine t)) := by
  induction ps with
  | nil => rfl
  | cons p ps ih =>
    simp only [renderPrereqsS, CourseBST.searchHelperS_spec, ih, List.map_cons,
      renderPrereqLine]

theorem foldl_append_map {α β : Type} (f : α → β) (l : List α) (acc : List β) :
    l.foldl (fun a x => a ++ [f x]) acc = acc ++ l.map f := by
  induction l generalizing acc with
  | nil => simp
  | cons x xs ih => simp [ih]

theorem collectPrereqs_foldl (l : List String) : ∀ (acc : List String),
    l.foldl (fun acc tok => let prereqId := trim tok;
      if prereqId ≠ "" then acc ++ [prereqId] else acc) acc =
    acc ++ (l.map trim).filter (fun p => p ≠ "") := by
  induction l with
  | nil => simp
  | cons x xs ih =>
    intro acc
    rw [List.foldl_cons, ih]
    by_cases hx : trim x = "" <;> simp [hx, List.filter_cons]

theorem collectPrereqs_eq (tokens : List String) :
    collectPrereqs tokens =
      ((tokens.drop 2).map trim).filter (fun p => p ≠ "") := by
  simpa [collectPrereqs] using collectPrereqs_foldl (tokens.drop 2) []

/-- Claim C1, counterexample: with a course already in the store from a
previous load, a failed open (`none`) leaves the store non-empty — the
claimed "store is cleared before loading begins, so after a failed open it
contains no entries from any previous load" is false, and listing does not
report "No courses loaded.". -/
theorem C1_counterexample :
    (loadCoursesFromFile "missing.txt" none
        (CourseBST.insertHelper CourseBST.leaf ⟨"CS101", "Intro", []⟩)).1 ≠
      CourseBST.leaf ∧
    CourseBST.printInOrderLines
        (loadCoursesFromFile "missing.txt" none
          (CourseBST.insertHelper CourseBST.leaf ⟨"CS101", "Intro", []⟩)).1 ≠
      ["No courses loaded."] := by
  refine ⟨?_, ?_⟩ <;> decide

/-- Claim C1 (amended): if the named input file cannot be opened, the load
aborts with the error report and returns `false` leaving the store exactly
as it was — the clear happens only after a successful open.  On a store
that was empty before the attempt the store hence stays empty and a
subsequent listing reports "No courses loaded.". -/
theorem C1_failed_open (fileName : String) (t : CourseBST) :
    loadCoursesFromFile fileName none t =
      (t, false, ["Error opening file: " ++ fileName]) ∧
    CourseBST.printInOrderLines CourseBST.leaf = ["No courses loaded."] :=
  ⟨rfl, rfl⟩

/-- Claim C2, counterexample: a course loaded with the lowercase number
"cs101" is not found when its own course number is queried, because the
query is uppercased but stored keys are not — so describing a loaded
course's number "in any letter casing" does not always find it. -/
theorem C2_counterexample :
    printCourseInformation
        (loadCoursesFromFile "f.csv" (some ["cs101,Intro"]) CourseBST.leaf).1
        "cs101" =
      ["Course CS101 not found."] := by
  rfl

/-- Claim C2 (amended): `printCourseInformation` uppercases the queried
course number before searching, so a stored course is found under every
letter casing of a query exactly when the stored key equals the uppercased
query — in particular every course whose stored number is already
uppercase is found under any casing of it, and the found course's header
is rendered. -/
theorem C2_uppercase_lookup (t : CourseBST) (q : String) (c : Course)
    (hfind : t.searchHelper c.courseNumber = some c)
    (hq : toUpper q = c.courseNumber) :
    ∃ rest, printCourseInformation t q =
      "" :: (c.courseNumber ++ ", " ++ c.courseTitle) :: rest := by
  simp only [printCourseInformation, hq, hfind]
  cases hp : c.prerequisites.isEmpty <;> simp [hp]

/-- Witness for C2: the store holds `CS101` (uppercase); querying the
lowercase casing `cs101` finds it and renders its header. -/
theorem C2_witness :
    ∃ rest, printCourseInformation
        (CourseBST.insertHelper CourseBST.leaf ⟨"CS101", "Intro", []⟩) "cs101" =
      "" :: "CS101, Intro" :: rest :=
  C2_uppercase_lookup
    (CourseBST.insertHelper CourseBST.leaf ⟨"CS101", "Intro", []⟩)
    "cs101" ⟨"CS101", "Intro", []⟩ (by decide) (by decide)

/-- Claim C3, counterexample: the line "CS101," (empty title) yields only
one token under the `getline`-based `split`, so the loader reports the
fewer-than-two-fields format error, not the missing-required-field
warning the claim states. -/
theorem C3_counterexample :
    processLine 1 "CS101," CourseBST.leaf =
      (CourseBST.leaf,
       ["File format error on line 1: fewer than two fields.",
        "Offending line: CS101,"]) ∧
    "File format warning on line 1: missing course number or title." ∉
      (processLine 1 "CS101," CourseBST.leaf).2 := by
  refine ⟨?_, ?_⟩ <;> decide

/-- Claim C3 (amended): a non-blank line that splits into at least two
fields and whose course number or course title is empty after trimming
gets the missing-required-field warning — distinct from the
fewer-than-two-fields format error — is skipped, and loading continues
with the remaining lines; but a line such as "CS101," whose trailing
delimiter produces no empty token splits into a single field and gets the
format error instead (also skipped). -/
theorem C3_missing_field (n : Nat) (line : String) (rest : List String)
    (t : CourseBST)
    (hblank : trim line ≠ "")
    (hlen : 2 ≤ (split line ',').length)
    (hmiss : trim ((split line ',').getD 0 "") = "" ∨
             trim ((split line ',').getD 1 "") = "") :
    processLine n line t =
      (t, ["File format warning on line " ++ toString n ++
            ": missing course number or title."]) ∧
    loadLines n (line :: rest) t =
      ((loadLines (n + 1) rest t).1,
       ("File format warning on line " ++ toString n ++
           ": missing course number or title.") ::
         (loadLines (n + 1) rest t).2) := by
  have h1 : processLine n line t =
      (t, ["File format warning on line " ++ toString n ++
            ": missing course number or title."]) := by
    unfold processLine
    rw [if_neg hblank, if_neg (not_lt.mpr hlen)]
    rw [if_neg ?_]
    rintro ⟨hnum, htitle⟩
    rcases hmiss with h | h
    · exact hnum h
    · exact htitle h
  refine ⟨h1, ?_⟩
  show ((loadLines (n + 1) rest (processLine n line t).1).1,
        (processLine n line t).2 ++
          (loadLines (n + 1) rest (processLine n line t).1).2) = _
  rw [h1]
  rfl

/-- Witness for C3: the line "CS101, " splits into two fields whose title
trims to empty, and gets the missing-field warning. -/
theorem C3_witness :
    processLine 1 "CS101, " CourseBST.leaf =
      (CourseBST.leaf,
       ["File format warning on line " ++ toString 1 ++
          ": missing course number or title."]) :=
  (C3_missing_field 1 "CS101, " [] CourseBST.leaf (by decide) (by decide)
    (Or.inr (by decide))).1

/-- Claim C4 (confirmed): inserting any list of courses with pairwise
distinct course numbers into an empty store and enumerating in order
yields the course numbers in strictly ascending lexicographic order, and
those numbers are exactly the inserted ones — so every permutation of the
same set produces the same strictly ascending listing. -/
theorem C4_permutation_sorted (cs : List Course)
    (hnd : (cs.map Course.courseNumber).Nodup) :
    (CourseBST.insertList CourseBST.leaf cs).keys.Sorted (· < ·) ∧
    (CourseBST.insertList CourseBST.leaf cs).keys.Perm
      (cs.map Course.courseNumber) := by
  obtain ⟨hb, hp⟩ :=
    CourseBST.insertList_spec cs CourseBST.leaf IsBST.leaf
      (by simpa [CourseBST.keys_leaf] using hnd)
  exact ⟨CourseBST.sorted_keys hb, by simpa [CourseBST.keys_leaf] using hp⟩

/-- Witness for C4: a three-course insertion in non-sorted order
enumerates in strictly ascending order with exactly the inserted keys. -/
theorem C4_witness :
    (CourseBST.insertList CourseBST.leaf
        [⟨"CS300", "Algorithms", []⟩, ⟨"CS101", "Intro", []⟩,
         ⟨"CS200", "Data Structures", []⟩]).keys.Sorted (· < ·) ∧
    (CourseBST.insertList CourseBST.leaf
        [⟨"CS300", "Algorithms", []⟩, ⟨"CS101", "Intro", []⟩,
         ⟨"CS200", "Data Structures", []⟩]).keys.Perm
      ([⟨"CS300", "Algorithms", []⟩, ⟨"CS101", "Intro", []⟩,
        ⟨"CS200", "Data Structures", []⟩].map Course.courseNumber) :=
  C4_permutation_sorted
    [⟨"CS300", "Algorithms", []⟩, ⟨"CS101", "Intro", []⟩,
     ⟨"CS200", "Data Structures", []⟩] (by decide)

/-- Claim C5 (confirmed): inserting a course whose number already exists
in the store replaces that entry's title and prerequisites in place — the
key multiset is unchanged, the entry count is unchanged, and a lookup of
that number now returns the new title and prerequisite list. -/
theorem C5_upsert (t : CourseBST) (c : Course) (hb : IsBST t)
    (hmem : c.courseNumber ∈ t.keys) :
    (t.insertHelper c).keys = t.keys ∧
    (t.insertHelper c).inOrder.length = t.inOrder.length ∧
    (t.insertHelper c).searchHelper c.courseNumber = some c := by
  have hk := CourseBST.keys_insertHelper_of_mem hb hmem
  refine ⟨hk, ?_, CourseBST.searchHelper_insertHelper_self t c⟩
  have hlen := congrArg List.length hk
  simpa [CourseBST.keys] using hlen

/-- Witness for C5: re-inserting `CS101` with a new title and
prerequisite list leaves the keys and entry count unchanged and lookup
returns the replacement. -/
theorem C5_witness :
    ((CourseBST.insertHelper CourseBST.leaf
        ⟨"CS101", "Old", ["X"]⟩).insertHelper ⟨"CS101", "New", ["CS100"]⟩).keys =
      (CourseBST.insertHelper CourseBST.leaf ⟨"CS101", "Old", ["X"]⟩).keys ∧
    ((CourseBST.insertHelper CourseBST.leaf
        ⟨"CS101", "Old", ["X"]⟩).insertHelper
          ⟨"CS101", "New", ["CS100"]⟩).inOrder.length =
      (CourseBST.insertHelper CourseBST.leaf ⟨"CS101", "Old", ["X"]⟩).inOrder.length ∧
    ((CourseBST.insertHelper CourseBST.leaf
        ⟨"CS101", "Old", ["X"]⟩).insertHelper
          ⟨"CS101", "New", ["CS100"]⟩).searchHelper "CS101" =
      some ⟨"CS101", "New", ["CS100"]⟩ :=
  C5_upsert (CourseBST.insertHelper CourseBST.leaf ⟨"CS101", "Old", ["X"]⟩)
    ⟨"CS101", "New", ["CS100"]⟩
    (CourseBST.isBST_insertHelper IsBST.leaf) (by decide)

/-- Claim C6 (confirmed): the loader clears the store before each load, so
the outcome of a successful open is independent of the prior store
contents, and loading the same file twice in succession leaves identical
store contents and an identical ordered listing. -/
theorem C6_idempotent_reload (fileName : String) (lines : List String)
    (t : CourseBST) :
    loadCoursesFromFile fileName (some lines) t =
      loadCoursesFromFile fileName (some lines) CourseBST.leaf ∧
    loadCoursesFromFile fileName (some lines)
        (loadCoursesFromFile fileName (some lines) t).1 =
      loadCoursesFromFile fileName (some lines) t ∧
    CourseBST.printInOrderLines
        (loadCoursesFromFile fileName (some lines)
            (loadCoursesFromFile fileName (some lines) t).1).1 =
      CourseBST.printInOrderLines
        (loadCoursesFromFile fileName (some lines) t).1 :=
  ⟨rfl, rfl, rfl⟩

/-- Claim C7 (confirmed): for a non-blank line with at least two fields
and non-empty number and title, the inserted course's prerequisites are
exactly the fields after the first two, trimmed, with fields empty after
trimming discarded. -/
theorem C7_prereq_fields (n : Nat) (line : String) (t : CourseBST)
    (hblank : trim line ≠ "")
    (hlen : 2 ≤ (split line ',').length)
    (hnum : trim ((split line ',').getD 0 "") ≠ "")
    (htitle : trim ((split line ',').getD 1 "") ≠ "") :
    processLine n line t =
      (t.insertHelper
        { courseNumber := trim ((split line ',').getD 0 ""),
          courseTitle := trim ((split line ',').getD 1 ""),
          prerequisites :=
            (((split line ',').drop 2).map trim).filter (fun p => p ≠ "") },
       []) := by
  simp only [processLine]
  split_ifs with hb hl hc
  · exact absurd hb hblank
  · exact absurd hl (not_lt.mpr hlen)
  · rw [collectPrereqs_eq]
  · exact absurd ⟨hnum, htitle⟩ hc

/-- Witness for C7: the line "CS101,Intro,CS100," inserts a course with
exactly one prerequisite, `CS100` — the trailing comma contributes
nothing. -/
theorem C7_witness :
    processLine 1 "CS101,Intro,CS100," CourseBST.leaf =
      (CourseBST.insertHelper CourseBST.leaf ⟨"CS101", "Intro", ["CS100"]⟩,
       []) :=
  (C7_prereq_fields 1 "CS101,Intro,CS100," CourseBST.leaf (by decide)
    (by decide) (by decide) (by decide)).trans (by decide)

/-- Claim C8 (confirmed): when the queried course is found, the rendering
is its header followed by "Prerequisites: None" if the prerequisite list
is empty, and otherwise by one line per prerequisite in order, each
rendered independently of the others — with its own number and title when
present in the store, and as the bare uppercased identifier annotated
"(course not found in data)" when absent. -/
theorem C8_describe_rendering (t : CourseBST) (q : String) (c : Course)
    (hfound : t.searchHelper (toUpper q) = some c) :
    printCourseInformation t q =
      (if c.prerequisites.isEmpty then
        ["", c.courseNumber ++ ", " ++ c.courseTitle, "Prerequisites: None"]
      else
        ["", c.courseNumber ++ ", " ++ c.courseTitle, "Prerequisites:"] ++
          c.prerequisites.map (renderPrereqLine t)) ∧
    ∀ p ∈ c.prerequisites,
      renderPrereqLine t p =
        (match t.searchHelper (toUpper p) with
         | some pc => "  " ++ pc.courseNumber ++ ", " ++ pc.courseTitle
         | none => "  " ++ toUpper p ++ " (course not found in data)") := by
  constructor
  · simp only [printCourseInformation, hfound]
    cases hp : c.prerequisites.isEmpty <;>
      simp [hp, foldl_append_map]
  · intro p _
    rfl

/-- Witness for C8: in a store holding `CS200` (prerequisites `CS101`,
present, and `CS999`, absent) and `CS101`, describing `CS200` renders the
resolved `CS101` line and the annotated `CS999` line. -/
theorem C8_witness :
    printCourseInformation
        (CourseBST.insertList CourseBST.leaf
          [⟨"CS200", "Data Structures", ["CS101", "CS999"]⟩,
           ⟨"CS101", "Intro", []⟩]) "CS200" =
      ["", "CS200, Data Structures", "Prerequisites:",
       "  CS101, Intro", "  CS999 (course not found in data)"] :=
  (C8_describe_rendering
    (CourseBST.insertList CourseBST.leaf
      [⟨"CS200", "Data Structures", ["CS101", "CS999"]⟩,
       ⟨"CS101", "Intro", []⟩]) "CS200"
    ⟨"CS200", "Data Structures", ["CS101", "CS999"]⟩ (by decide)).1.trans
    (by decide)

/-- Claim C9 (confirmed): search and describe are read-only on the store:
threading the tree through `searchHelper` and `printCourseInformation` as
the C++ reference parameter returns it exactly unchanged, search agrees
with the functional lookup, and describing a course number absent from
the store renders the not-found message (store still unchanged). -/
theorem C9_lookup_pure (t : CourseBST) (q k : String) :
    (searchHelperS t k).1 = t ∧
    (searchHelperS t k).2 = t.searchHelper k ∧
    (printCourseInformationS t q).1 = t ∧
    (t.searchHelper (toUpper q) = none →
      (printCourseInformationS t q).2 =
        ["Course " ++ toUpper q ++ " not found."]) := by
  refine ⟨?_, ?_, ?_, ?_⟩
  · rw [CourseBST.searchHelperS_spec]
  · rw [CourseBST.searchHelperS_spec]
  · simp only [printCourseInformationS, CourseBST.searchHelperS_spec]
    cases h : t.searchHelper (toUpper q) with
    | none => rfl
    | some found =>
      cases hp : found.prerequisites.isEmpty <;>
        simp [hp, renderPrereqsS_spec]
  · intro hnone
    simp [printCourseInformationS, CourseBST.searchHelperS_spec, hnone]

/-- Witness for C9: describing `CS999` on the empty store leaves it
unchanged and renders the not-found message. -/
theorem C9_witness :
    (searchHelperS CourseBST.leaf "CS999").1 = CourseBST.leaf ∧
    (searchHelperS CourseBST.leaf "CS999").2 =
      CourseBST.leaf.searchHelper "CS999" ∧
    (printCourseInformationS CourseBST.leaf "CS999").1 = CourseBST.leaf ∧
    (printCourseInformationS CourseBST.leaf "CS999").2 =
      ["Course CS999 not found."] := by
  have h := C9_lookup_pure CourseBST.leaf "CS999" "CS999"
  exact ⟨h.1, h.2.1, h.2.2.1, h.2.2.2 (by decide)⟩

/-- Claim C10 (confirmed): whenever the file opens, the load reports
success and returns `true`, whatever the lines are — in particular for an
empty file or a file whose every line is blank or skipped, after which
the store is empty and the listing prints "No courses loaded.". -/
theorem C10_load_success (fileName : String) (lines : List String)
    (t : CourseBST) :
    (loadCoursesFromFile fileName (some lines) t).2.1 = true ∧
    (loadCoursesFromFile fileName (some lines) t).2.2.getLast? =
      some ("Courses successfully loaded from file: " ++ fileName) ∧
    (loadCoursesFromFile fileName (some []) t).1 = CourseBST.leaf ∧
    (loadCoursesFromFile fileName (some ["   ", "CS101"]) t).1 =
      CourseBST.leaf ∧
    CourseBST.printInOrderLines
        (loadCoursesFromFile fileName (some ["   ", "CS101"]) t).1 =
      ["No courses loaded."] := by
  refine ⟨rfl, ?_, rfl, rfl, rfl⟩
  simp only [loadCoursesFromFile]
  rw [List.getLast?_append_cons]
  rfl
